import Mathlib

/-!
Verification of the recurrence-expansion core of `ical2org.py`.

The source manipulates Python `datetime` values carrying a `pytz` timezone.
We embed them shallowly:

* a `Zone` is the pair of offset functions a pytz timezone provides:
  `atWall` gives the UTC offset (in minutes) chosen by `localize` for a given
  wall-clock reading, `atInstant` the offset chosen by `astimezone`/`normalize`
  for a given UTC instant;
* a `DT` is one aware datetime: its wall-clock reading both as a minute count
  (`wall`, minutes since the wall-clock reading 0001-01-01 00:00 at minute
  1440, i.e. `wall = 1440 * proleptic_ordinal + minute_of_day`) and as
  calendar fields (`year`/`month`/`day`, as Python `datetime` stores them),
  together with the UTC offset `off` (minutes) of the attached `tzinfo`
  snapshot and the `Zone` it came from.  Every operation below keeps the two
  representations of the wall clock in sync exactly as Python's `datetime`
  arithmetic does (field arithmetic goes through the proleptic ordinal).

Aware datetimes compare by UTC instant, which is `wall - off`.
Timedeltas and durations are plain minute counts (`Int`).
-/

/-- A pytz timezone: UTC offset (minutes east) as a function of the wall
clock (used by `localize`) and as a function of the UTC instant (used by
`astimezone`/`normalize`). -/
structure Zone where
  atWall : Int → Int
  atInstant : Int → Int

/-- The UTC timezone. -/
def utcZone : Zone := ⟨fun _ => 0, fun _ => 0⟩

/-- Leap-year test of the proleptic Gregorian calendar (Python
`calendar.isleap`). -/
def isLeap (y : Int) : Bool :=
  (y.emod 4 == 0 && y.emod 100 != 0) || y.emod 400 == 0

/-- Length of month `m` of year `y` (Python `calendar.monthrange`). -/
def daysInMonth (y m : Int) : Int :=
  if m = 2 then (if isLeap y then 29 else 28)
  else if m = 4 ∨ m = 6 ∨ m = 9 ∨ m = 11 then 30
  else 31

/-- Proleptic Gregorian ordinal of a calendar date (Python
`date.toordinal`): 0001-01-01 has ordinal 1.  Standard civil-calendar
formula over a March-based year. -/
def ordinalFromCivil (y m d : Int) : Int :=
  let y2 := if m ≤ 2 then y - 1 else y
  let mp := if 2 < m then m - 3 else m + 9
  let doy := (153 * mp + 2).fdiv 5 + d - 1
  365 * y2 + y2.fdiv 4 - y2.fdiv 100 + y2.fdiv 400 + doy - 305

/-- Calendar date of a proleptic Gregorian ordinal (Python
`date.fromordinal`); inverse of `ordinalFromCivil`. -/
def civilFromOrdinal (z0 : Int) : Int × Int × Int :=
  let z := z0 + 305
  let era := z.fdiv 146097
  let doe := z - era * 146097
  let yoe := (doe - doe.fdiv 1460 + doe.fdiv 36524 - doe.fdiv 146096).fdiv 365
  let doy := doe - (365 * yoe + yoe.fdiv 4 - yoe.fdiv 100)
  let mp := (5 * doy + 2).fdiv 153
  let d := doy - (153 * mp + 2).fdiv 5 + 1
  let m := if mp < 10 then mp + 3 else mp - 9
  let y := yoe + era * 400
  (if m ≤ 2 then y + 1 else y, m, d)

/-- One aware Python datetime (see the module comment). -/
structure DT where
  wall : Int
  year : Int
  month : Int
  day : Int
  off : Int
  zone : Zone

/-- The UTC instant an aware datetime denotes; aware datetimes compare and
subtract by this value. -/
def instant (dt : DT) : Int := dt.wall - dt.off

/-- Python `datetime.toordinal`: the proleptic ordinal of the wall-clock
date. -/
def toordinal (dt : DT) : Int := dt.wall.fdiv 1440

/-- Minute of day of the wall-clock reading. -/
def timeOfDay (dt : DT) : Int := dt.wall - 1440 * toordinal dt

/-- Build an aware datetime from calendar data, minute of day, offset and
zone (used only to write down concrete inputs). -/
def mkDT (y m d tod off : Int) (z : Zone) : DT :=
  ⟨ordinalFromCivil y m d * 1440 + tod, y, m, d, off, z⟩

/-- Rebuild the calendar fields of a `DT` from a wall-minute count. -/
def ofWall (w off : Int) (z : Zone) : DT :=
  let c := civilFromOrdinal (w.fdiv 1440)
  ⟨w, c.1, c.2.1, c.2.2, off, z⟩

/-- `add_delta_dst` (source lines 252-262): strip the tzinfo, add the
timedelta to the naive wall clock, and `localize` the result back into the
zone, which re-derives the offset from the new wall-clock reading. -/
def add_delta_dst (dt : DT) (dm : Int) : DT :=
  let w := dt.wall + dm
  ofWall w (dt.zone.atWall w) dt.zone

/-- Python `aware + timedelta`: shifts the wall clock, keeping the attached
tzinfo snapshot (hence the offset) unchanged. -/
def addPlain (dt : DT) (dm : Int) : DT :=
  ofWall (dt.wall + dm) dt.off dt.zone

/-- `tzinfo.normalize(dt + duration)` as used at source lines 106, 118 and
190: plain addition shifts the UTC instant by the duration, and `normalize`
re-renders that instant in the zone. -/
def normalizeAdd (dt : DT) (dm : Int) : DT :=
  let i := instant dt + dm
  let o := dt.zone.atInstant i
  ofWall (i + o) o dt.zone

/-- `dt.astimezone(utc)`: same instant, rendered in UTC. -/
def astimezoneUtc (dt : DT) : DT :=
  ofWall (instant dt) 0 utcZone

/-- Python `min` of two aware datetimes (first argument wins ties);
comparison is by instant. -/
def minDT (a b : DT) : DT :=
  if instant b < instant a then b else a

/-- `advance_just_before` (source lines 265-284): whole-step count by floor
division over ordinal day counts (Python 2 `/` on ints is floor division),
then a DST-safe jump by that many steps.  `1440 * (dd * k)` is
`timedelta(days = delta_days * int(delta_ord))` in minutes. -/
def advance_just_before (start_dt timeframe_start : DT) (delta_days : Int) :
    DT × Int :=
  let k := (toordinal timeframe_start - toordinal start_dt - 1).fdiv delta_days
  (add_delta_dst start_dt (1440 * (delta_days * k)), k)

/-- The exceptions the expansion core can raise: the string exception at
source lines 69/168 for a rule carrying both COUNT and UNTIL, `ValueError`
from `datetime.replace`, and `KeyError` from a missing mapping key. -/
inductive PyErr where
  | malformedRule
  | valueError
  | keyError
deriving DecidableEq, Repr

/-- Is the computation a raised exception? -/
def isError {α : Type} : Except PyErr α → Bool
  | .error _ => true
  | .ok _ => false

/-- The recurrence-rule fields the core reads from `comp['RRULE']`.
Datetime-valued fields are stored after `get_datetime` conversion. -/
structure RRule where
  freq : String
  interval : Option Int
  count : Option Int
  rUntil : Option DT
  bymonth : Option Int
  bymonthday : Option Int

/-- The VEVENT fields the core reads.  `dtstart`/`dtend` are stored after
`get_datetime` conversion. -/
structure VEvent where
  name : String
  dtstart : DT
  dtend : DT
  rrule : Option RRule

/-- One emitted occurrence `(start, end, is_recurring)` with the recurrence
flag as the 0/1 integer the source uses. -/
abbrev Occ := DT × DT × Nat

/-- `EventSingleIter` (source lines 26-48): the at-most-one-element sequence
the iterator yields. -/
def eventSingleIter (comp : VEvent) (timeframe_start timeframe_end : DT) :
    List Occ :=
  let ev_start := comp.dtstart
  let ev_end := comp.dtend
  if instant ev_start < instant timeframe_end ∧
      instant timeframe_start < instant ev_end then
    [(ev_start, ev_end, 0)]
  else []

/-- Mutable state of `EventRecurDaysIter` after `__init__`.  `delta` is the
step in minutes (`timedelta(delta_days)`), `count` is meaningful only when
`isCount` is true (the attribute does not exist otherwise). -/
structure DaysState where
  current : DT
  duration : Int
  delta : Int
  isCount : Bool
  count : Int
  untilUtc : DT

/-- The `while self.current < timeframe_start` loop of source lines 91-92,
unrolled on an explicit bound.  The bound chosen in `nudge` is generous
enough for every real timezone (offsets vary by less than 240 minutes
within one zone, so each step gains at least `delta - 240 ≥ 1200` minutes
of instant). -/
def nudgeFuel : Nat → DT → Int → DT → DT
  | 0, _, _, c => c
  | f + 1, ws, dm, c =>
    if instant c < instant ws then nudgeFuel f ws dm (add_delta_dst c dm)
    else c

/-- The linear forward nudge of source lines 91-92. -/
def nudge (ws : DT) (dm : Int) (c : DT) : DT :=
  nudgeFuel ((instant ws - instant c).toNat / 1200 + 2) ws dm c

/-- `EventRecurDaysIter.__init__` (source lines 55-94).  Mirrors the source
order: read COUNT, compute the step, raise on COUNT together with UNTIL,
resolve the upper bound, return early when it precedes the window, clamp it,
then either fast-forward (pre-advance, COUNT decrement with early
exhaustion, linear nudge) or start at the event start. -/
def mkDaysIter (days : Int) (comp : VEvent)
    (timeframe_start timeframe_end : DT) : Except PyErr DaysState :=
  match comp.rrule with
  | none => .error .keyError
  | some rr =>
    let ev_start := comp.dtstart
    let duration := instant comp.dtend - instant ev_start
    let is_count := rr.count.isSome
    let count0 := rr.count.getD 0
    let delta_days := days * rr.interval.getD 1
    let dm := 1440 * delta_days
    if rr.rUntil.isSome ∧ is_count then .error .malformedRule
    else
      let until_utc :=
        match rr.rUntil with
        | some u => astimezoneUtc u
        | none => timeframe_end
      if instant until_utc < instant timeframe_start then
        -- default value for no iteration (source line 77)
        .ok ⟨addPlain until_utc dm, duration, dm, is_count, count0, until_utc⟩
      else
        let until_utc := minDT until_utc timeframe_end
        if instant ev_start < instant timeframe_start then
          let p := advance_just_before ev_start timeframe_start delta_days
          let count1 := if is_count then count0 - p.2 else count0
          if is_count ∧ count1 < 1 then
            -- immediately exhausted (source lines 87-90); the nudge loop
            -- is not reached
            .ok ⟨p.1, duration, dm, is_count, count1, until_utc⟩
          else
            .ok ⟨nudge timeframe_start dm p.1, duration, dm, is_count,
                  count1, until_utc⟩
        else
          .ok ⟨ev_start, duration, dm, is_count, count0, until_utc⟩

/-- `next_until` (source lines 99-108) iterated to a list: emit while
`current ≤ until_utc`, stepping DST-safely; the bound is an unrolling
depth, every guard is re-checked. -/
def runUntilFuel : Nat → DaysState → List Occ
  | 0, _ => []
  | f + 1, st =>
    if instant st.untilUtc < instant st.current then []
    else
      (st.current, normalizeAdd st.current st.duration, 1) ::
        runUntilFuel f { st with current := add_delta_dst st.current st.delta }

/-- `next_count` (source lines 110-120) iterated to a list: emit while
`count ≥ 1`, decrementing per emission; no window/until check occurs. -/
def runCountFuel : Nat → DaysState → List Occ
  | 0, _ => []
  | f + 1, st =>
    if st.count < 1 then []
    else
      (st.current, normalizeAdd st.current st.duration, 1) ::
        runCountFuel f
          { st with count := st.count - 1,
                    current := add_delta_dst st.current st.delta }

/-- All occurrences an `EventRecurDaysIter` yields until `StopIteration`
(source lines 122-125 dispatch on `is_count`).  A COUNT run is bounded by
the count itself; an UNTIL run gets the same generous instant-gap bound as
`nudge`. -/
def daysRun (st : DaysState) : List Occ :=
  if st.isCount then runCountFuel st.count.toNat st
  else
    runUntilFuel ((instant st.untilUtc - instant st.current).toNat / 1200 + 2)
      st

/-- `datetime.replace(year=y)`: swap the year field, validating the
resulting date as the `datetime` constructor does (month range, day against
the new month length; `ValueError` otherwise).  The tzinfo snapshot is kept
unchanged. -/
def replace_year (dt : DT) (y : Int) : Except PyErr DT :=
  if 1 ≤ dt.month ∧ dt.month ≤ 12 ∧ 1 ≤ dt.day ∧
      dt.day ≤ daysInMonth y dt.month then
    .ok ⟨ordinalFromCivil y dt.month dt.day * 1440 + timeOfDay dt,
          y, dt.month, dt.day, dt.off, dt.zone⟩
  else .error .valueError

/-- `datetime.replace(month=m)`, validated like `replace_year`. -/
def replace_month (dt : DT) (m : Int) : Except PyErr DT :=
  if 1 ≤ m ∧ m ≤ 12 ∧ 1 ≤ dt.day ∧ dt.day ≤ daysInMonth dt.year m then
    .ok ⟨ordinalFromCivil dt.year m dt.day * 1440 + timeOfDay dt,
          dt.year, m, dt.day, dt.off, dt.zone⟩
  else .error .valueError

/-- `datetime.replace(day=d)`, validated like `replace_year`. -/
def replace_day (dt : DT) (d : Int) : Except PyErr DT :=
  if 1 ≤ dt.month ∧ dt.month ≤ 12 ∧ 1 ≤ d ∧
      d ≤ daysInMonth dt.year dt.month then
    .ok ⟨ordinalFromCivil dt.year dt.month d * 1440 + timeOfDay dt,
          dt.year, dt.month, d, dt.off, dt.zone⟩
  else .error .valueError

/-- The candidate construction of `EventRecurYearlyIter.next` (source lines
180-182): replace year, then month, then day-of-month on the template
start; any step may raise `ValueError`. -/
def replaceYMD (dt : DT) (y m d : Int) : Except PyErr DT := do
  let a1 ← replace_year dt y
  let a2 ← replace_month a1 m
  replace_day a2 d

/-- Python 2 `range(a, b)` over integers. -/
def rangeInts (a b : Int) : List Int :=
  (List.range (b - a).toNat).map fun i : Nat => a + (i : Int)

/-- State of `EventRecurYearlyIter` after `__init__`; the cursor/length pair
`(i, n)` is represented by the list of candidate years not yet consumed. -/
structure YearState where
  ev_start : DT
  duration : Int
  bymonth : Int
  bymonthday : Int
  years : List Int
  startB : DT
  endB : DT

/-- `EventRecurYearlyIter.__init__` (source lines 139-172).  On the early
return at line 151-155 only `i = n = 0` is set; `bymonth`, `bymonthday`,
`duration` and `years` are never read on that path, so the model stores
zeros and the empty list for them. -/
def mkYearlyIter (comp : VEvent) (timeframe_start timeframe_end : DT) :
    Except PyErr YearState :=
  match comp.rrule with
  | none => .error .keyError
  | some rr =>
    let ev_start := comp.dtstart
    let is_until := rr.rUntil.isSome
    let endB :=
      match rr.rUntil with
      | some u => minDT timeframe_end (astimezoneUtc u)
      | none => timeframe_end
    if instant endB < instant timeframe_start then
      .ok ⟨ev_start, 0, 0, 0, [], timeframe_start, endB⟩
    else
      let bymonth := rr.bymonth.getD ev_start.month
      let bymonthday := rr.bymonthday.getD ev_start.day
      let duration := instant comp.dtend - instant ev_start
      match rr.count with
      | some n =>
        if is_until then .error .malformedRule
        else
          .ok ⟨ev_start, duration, bymonth, bymonthday,
                (rangeInts ev_start.year (endB.year + 1)).take n.toNat,
                timeframe_start, endB⟩
      | none =>
        .ok ⟨ev_start, duration, bymonth, bymonthday,
              rangeInts timeframe_start.year (endB.year + 1),
              timeframe_start, endB⟩

/-- `EventRecurYearlyIter.next` (source lines 177-192) iterated over the
remaining candidate years: construct the candidate (propagating
`ValueError`), stop at the first candidate past the upper bound, skip
candidates before the window start, emit the rest. -/
def yearlyRunAux (st : YearState) : List Int → Except PyErr (List Occ)
  | [] => .ok []
  | y :: ys => do
    let aux ← replaceYMD st.ev_start y st.bymonth st.bymonthday
    if instant st.endB < instant aux then .ok []
    else if instant aux < instant st.startB then yearlyRunAux st ys
    else
      let rest ← yearlyRunAux st ys
      .ok ((aux, normalizeAdd aux st.duration, 1) :: rest)

/-- All occurrences an `EventRecurYearlyIter` yields until `StopIteration`,
or the `ValueError` that aborts the iteration. -/
def yearlyRun (st : YearState) : Except PyErr (List Occ) :=
  yearlyRunAux st st.years

/-- Result of `generate_event_iterator`: no iterator (non-VEVENT component
or the empty MONTHLY list), a single-event iterator already run, or a
recurring-iterator state. -/
inductive GenResult where
  | empty
  | single (occs : List Occ)
  | days (st : DaysState)
  | yearly (st : YearState)

/-- `generate_event_iterator` (source lines 287-315).  The mapping literal
evaluates every value before the `FREQ` lookup, so all three constructors
run (in source order) whatever the tag; an unrecognized tag then raises
`KeyError`. -/
def generate_event_iterator (comp : VEvent)
    (timeframe_start timeframe_end : DT) : Except PyErr GenResult :=
  if comp.name ≠ "VEVENT" then .ok .empty
  else
    match comp.rrule with
    | some rr => do
      let weekly ← mkDaysIter 7 comp timeframe_start timeframe_end
      let daily ← mkDaysIter 1 comp timeframe_start timeframe_end
      let yearly ← mkYearlyIter comp timeframe_start timeframe_end
      match rr.freq with
      | "WEEKLY" => .ok (.days weekly)
      | "DAILY" => .ok (.days daily)
      | "MONTHLY" => .ok .empty
      | "YEARLY" => .ok (.yearly yearly)
      | _ => .error .keyError
    | none => .ok (.single (eventSingleIter comp timeframe_start timeframe_end))

/-! ### Arithmetic toolbox -/

theorem fdiv_mul_le {n d : Int} (hd : 0 < d) : d * n.fdiv d ≤ n := by
  rw [Int.fdiv_eq_ediv n (le_of_lt hd)]
  have h1 := Int.ediv_add_emod n d
  have h2 := Int.emod_nonneg n (by omega : d ≠ 0)
  omega

theorem wall_fdiv_add_mul (a q : Int) :
    (a + 1440 * q).fdiv 1440 = a.fdiv 1440 + q := by
  rw [Int.fdiv_eq_ediv _ (by norm_num), Int.fdiv_eq_ediv _ (by norm_num),
    show a + 1440 * q = a + q * 1440 by ring,
    Int.add_mul_ediv_right a q (by norm_num)]

theorem timeOfDay_bounds (dt : DT) : 0 ≤ timeOfDay dt ∧ timeOfDay dt < 1440 := by
  unfold timeOfDay toordinal
  rw [Int.fdiv_eq_ediv _ (by norm_num)]
  have h1 := Int.ediv_add_emod dt.wall 1440
  have h2 := Int.emod_nonneg dt.wall (by norm_num : (1440:Int) ≠ 0)
  have h3 := Int.emod_lt_of_pos dt.wall (by norm_num : (0:Int) < 1440)
  omega

/-! ### Instant and wall-clock facts about the datetime operations -/

theorem wall_add_delta (dt : DT) (dm : Int) :
    (add_delta_dst dt dm).wall = dt.wall + dm := rfl

theorem zone_add_delta (dt : DT) (dm : Int) :
    (add_delta_dst dt dm).zone = dt.zone := rfl

theorem off_add_delta (dt : DT) (dm : Int) :
    (add_delta_dst dt dm).off = dt.zone.atWall (dt.wall + dm) := rfl

theorem instant_addPlain (dt : DT) (dm : Int) :
    instant (addPlain dt dm) = instant dt + dm := by
  simp [instant, addPlain, ofWall]; ring

theorem instant_normalizeAdd (dt : DT) (dm : Int) :
    instant (normalizeAdd dt dm) = instant dt + dm := by
  simp [instant, normalizeAdd, ofWall]

theorem instant_astimezoneUtc (dt : DT) :
    instant (astimezoneUtc dt) = instant dt := by
  simp [instant, astimezoneUtc, ofWall]

/-- Offset variation within one timezone: every real zone's `localize`
offsets differ pairwise by less than four hours. -/
def ZoneVar (z : Zone) : Prop :=
  ∀ w w', z.atWall w - z.atWall w' ≤ 240

theorem instant_add_delta_ge (dt : DT) (dm : Int)
    (hz : ZoneVar dt.zone) (hoff : dt.off = dt.zone.atWall dt.wall) :
    instant dt + dm - 240 ≤ instant (add_delta_dst dt dm) := by
  have := hz (dt.wall + dm) dt.wall
  simp only [instant, add_delta_dst, ofWall, hoff]
  omega

/-- A `DT` whose offset is what its own zone's `localize` assigns to its
wall-clock reading: the state of every datetime the daily iterator steps
through. -/
def Localized (dt : DT) : Prop := dt.off = dt.zone.atWall dt.wall

theorem localized_add_delta (dt : DT) (dm : Int) :
    Localized (add_delta_dst dt dm) := rfl

/-! ### The linear nudge loop -/

theorem nudgeFuel_zone : ∀ (f : Nat) (ws : DT) (dm : Int) (c : DT),
    (nudgeFuel f ws dm c).zone = c.zone
  | 0, _, _, _ => rfl
  | f + 1, ws, dm, c => by
    unfold nudgeFuel
    split
    · rw [nudgeFuel_zone f, zone_add_delta]
    · rfl

theorem nudgeFuel_localized : ∀ (f : Nat) (ws : DT) (dm : Int) (c : DT),
    Localized c → Localized (nudgeFuel f ws dm c)
  | 0, _, _, _, h => h
  | f + 1, ws, dm, c, h => by
    unfold nudgeFuel
    split
    · exact nudgeFuel_localized f ws dm _ (localized_add_delta c dm)
    · exact h

theorem nudgeFuel_ge {dm : Int} (hdm : 1440 ≤ dm) (ws : DT) :
    ∀ (f : Nat) (c : DT), Localized c → ZoneVar c.zone →
      instant ws - instant c ≤ 1200 * f →
      ¬ instant (nudgeFuel f ws dm c) < instant ws := by
  intro f
  induction f with
  | zero => intro c _ _ hgap; simpa [nudgeFuel] using by omega
  | succ f ih =>
    intro c hloc hz hgap
    unfold nudgeFuel
    split
    · have hstep := instant_add_delta_ge c dm hz hloc
      refine ih (add_delta_dst c dm) (localized_add_delta c dm) ?_ ?_
      · rw [zone_add_delta]; exact hz
      · push_cast at hgap ⊢
        omega
    · omega

theorem nudge_ge {dm : Int} (hdm : 1440 ≤ dm) (ws : DT) (c : DT)
    (hloc : Localized c) (hz : ZoneVar c.zone) :
    ¬ instant (nudge ws dm c) < instant ws := by
  apply nudgeFuel_ge hdm ws _ c hloc hz
  have h : ∀ g : Int, g ≤ 1200 * (g.toNat / 1200 + 2 : Nat) := by
    intro g
    have h1 : (g.toNat : Int) = max g 0 := by omega
    push_cast
    omega
  exact h _

theorem nudge_zone (ws : DT) (dm : Int) (c : DT) :
    (nudge ws dm c).zone = c.zone := nudgeFuel_zone _ _ _ _

theorem nudge_localized (ws : DT) (dm : Int) (c : DT) (h : Localized c) :
    Localized (nudge ws dm c) := nudgeFuel_localized _ _ _ _ h

/-! ### Emission-loop invariants -/

theorem runUntilFuel_nil {f : Nat} {st : DaysState}
    (h : instant st.untilUtc < instant st.current) : runUntilFuel f st = [] := by
  cases f <;> simp [runUntilFuel, h]

theorem runCountFuel_nil {f : Nat} {st : DaysState}
    (h : st.count < 1) : runCountFuel f st = [] := by
  cases f <;> simp [runCountFuel, h]

theorem runUntilFuel_mem (B : Int) :
    ∀ (f : Nat) (st : DaysState), Localized st.current →
      ZoneVar st.current.zone → 240 ≤ st.delta → B ≤ instant st.current →
      ∀ o ∈ runUntilFuel f st,
        B ≤ instant o.1 ∧ instant o.1 ≤ instant st.untilUtc := by
  intro f
  induction f with
  | zero => intro st _ _ _ _ o ho; simp [runUntilFuel] at ho
  | succ f ih =>
    intro st hloc hz hdm hB o ho
    unfold runUntilFuel at ho
    split at ho
    · simp at ho
    · rename_i hguard
      rcases List.mem_cons.1 ho with rfl | ho
      · refine ⟨hB, ?_⟩
        show instant st.current ≤ instant st.untilUtc
        omega
      · have hstep := instant_add_delta_ge st.current st.delta hz hloc
        refine ih { st with current := add_delta_dst st.current st.delta }
          (localized_add_delta _ _) (by rw [zone_add_delta]; exact hz)
          hdm ?_ o ho
        show B ≤ instant (add_delta_dst st.current st.delta)
        omega

theorem runUntilFuel_head : ∀ (f : Nat) (st : DaysState) (o : Occ),
    (runUntilFuel f st).head? = some o → o.1 = st.current := by
  intro f st o h
  cases f with
  | zero => simp [runUntilFuel] at h
  | succ f =>
    unfold runUntilFuel at h
    split at h
    · simp at h
    · simp at h
      subst h
      rfl

theorem runUntilFuel_chain : ∀ (f : Nat) (st : DaysState),
    List.Chain' (fun a b : Occ => b.1.wall = a.1.wall + st.delta)
      (runUntilFuel f st) := by
  intro f
  induction f with
  | zero => intro st; simp [runUntilFuel]
  | succ f ih =>
    intro st
    unfold runUntilFuel
    split
    · simp
    · rw [List.chain'_cons']
      constructor
      · intro o ho
        have := runUntilFuel_head f _ o ho
        simp [this, wall_add_delta]
      · exact ih _

theorem runCountFuel_length : ∀ (f : Nat) (st : DaysState),
    (runCountFuel f st).length = min f st.count.toNat := by
  intro f
  induction f with
  | zero => intro st; simp [runCountFuel]
  | succ f ih =>
    intro st
    unfold runCountFuel
    split
    · rename_i h
      simp only [List.length_nil]
      omega
    · rename_i h
      simp only [List.length_cons, ih]
      omega

theorem runCountFuel_shape : ∀ (f : Nat) (st : DaysState), ∀ o ∈ runCountFuel f st,
    o.2.1 = normalizeAdd o.1 st.duration ∧ o.2.2 = 1 := by
  intro f
  induction f with
  | zero => intro st o ho; simp [runCountFuel] at ho
  | succ f ih =>
    intro st o ho
    unfold runCountFuel at ho
    split at ho
    · simp at ho
    · rcases List.mem_cons.1 ho with rfl | ho
      · exact ⟨rfl, rfl⟩
      · exact ih { st with count := st.count - 1, current := add_delta_dst st.current st.delta } o ho

theorem runUntilFuel_shape : ∀ (f : Nat) (st : DaysState), ∀ o ∈ runUntilFuel f st,
    o.2.1 = normalizeAdd o.1 st.duration ∧ o.2.2 = 1 := by
  intro f
  induction f with
  | zero => intro st o ho; simp [runUntilFuel] at ho
  | succ f ih =>
    intro st o ho
    unfold runUntilFuel at ho
    split at ho
    · simp at ho
    · rcases List.mem_cons.1 ho with rfl | ho
      · exact ⟨rfl, rfl⟩
      · exact ih { st with current := add_delta_dst st.current st.delta } o ho

/-! ### Claim C5: the single-event generator -/

/-- C5: a non-recurring event produces exactly one occurrence iff
`start < window.end` and `end > window.start`; an event touching the window
boundary (`end = window.start` or `start = window.end`) produces none; the
generator emits at most once. -/
theorem claim_C5 (comp : VEvent) (ws we : DT) :
    ((eventSingleIter comp ws we).length = 1 ↔
      instant comp.dtstart < instant we ∧ instant ws < instant comp.dtend) ∧
    (instant comp.dtend = instant ws → eventSingleIter comp ws we = []) ∧
    (instant comp.dtstart = instant we → eventSingleIter comp ws we = []) ∧
    (eventSingleIter comp ws we).length ≤ 1 := by
  simp only [eventSingleIter]
  split_ifs with h
  · exact ⟨by simpa using h, fun he => by omega, fun he => by omega, by simp⟩
  · refine ⟨by simpa using h, fun _ => rfl, fun _ => rfl, by simp⟩

def w5comp : VEvent :=
  ⟨"VEVENT", mkDT 2023 3 5 600 0 utcZone, mkDT 2023 3 5 660 0 utcZone, none⟩

def w5ws : DT := mkDT 2023 3 1 0 0 utcZone

def w5we : DT := mkDT 2023 4 1 0 0 utcZone

/-- C5 witness: a one-hour event inside the window yields exactly one
occurrence. -/
theorem claim_C5_witness : (eventSingleIter w5comp w5ws w5we).length = 1 :=
  (claim_C5 w5comp w5ws w5we).1.mpr (by decide)

/-! ### Claim C4: the ordinal pre-advance -/

/-- An `Etc/GMT+12`-style fixed timezone, twelve hours west of UTC. -/
def gm12 : Zone := ⟨fun _ => -720, fun _ => -720⟩

def cx4start : DT := mkDT 2023 5 30 1430 (-720) gm12

def cx4ws : DT := mkDT 2023 6 1 0 0 utcZone

/-- C4 counterexample: for an event at 23:50 wall clock in a UTC-12 zone
and a window starting at midnight UTC, `advance_just_before` returns a time
whose instant is 710 minutes AFTER the window start, although the
preconditions of the claim hold (`event_start < window_start`, positive
step).  The claimed bound `t ≤ window_start` therefore fails. -/
theorem claim_C4_cx :
    instant cx4start < instant cx4ws ∧ (0:Int) < 1 ∧
    instant cx4ws < instant (advance_just_before cx4start cx4ws 1).1 := by
  refine ⟨by decide, by decide, by decide⟩

/-- C4 amended: the returned pair is `(event_start advanced by k whole
steps, k)` with `k = floor((window_start.ordinal - event_start.ordinal - 1)
/ step_days)`, and the returned time's wall-clock ordinal day is strictly
before the window start's wall-clock ordinal day (the instant-level bound
`t ≤ window_start` can fail by up to the offset difference between the two
zones, as the counterexample shows). -/
theorem claim_C4 (s ws : DT) (dd : Int) (hdd : 0 < dd)
    (_hlt : instant s < instant ws) :
    (advance_just_before s ws dd).2 =
      (toordinal ws - toordinal s - 1).fdiv dd ∧
    (advance_just_before s ws dd).1 =
      add_delta_dst s (1440 * (dd * (advance_just_before s ws dd).2)) ∧
    toordinal (advance_just_before s ws dd).1 < toordinal ws := by
  refine ⟨rfl, rfl, ?_⟩
  have hk := fdiv_mul_le (n := toordinal ws - toordinal s - 1) hdd
  simp only [advance_just_before, add_delta_dst, ofWall, toordinal] at hk ⊢
  rw [wall_fdiv_add_mul]
  omega

def w4s : DT := mkDT 2023 1 1 0 0 utcZone

def w4ws : DT := mkDT 2023 2 1 0 0 utcZone

/-- C4 witness: the amended statement at a concrete weekly step. -/
theorem claim_C4_witness :
    (advance_just_before w4s w4ws 7).2 =
      (toordinal w4ws - toordinal w4s - 1).fdiv 7 ∧
    (advance_just_before w4s w4ws 7).1 =
      add_delta_dst w4s (1440 * (7 * (advance_just_before w4s w4ws 7).2)) ∧
    toordinal (advance_just_before w4s w4ws 7).1 < toordinal w4ws :=
  claim_C4 w4s w4ws 7 (by norm_num) (by decide)

/-! ### Claim C9: durations and the recurrence flag -/

theorem mkDaysIter_duration {days : Int} {comp : VEvent} {ws we : DT}
    {st : DaysState} (h : mkDaysIter days comp ws we = .ok st) :
    st.duration = instant comp.dtend - instant comp.dtstart := by
  simp only [mkDaysIter] at h
  repeat' split at h
  all_goals first
    | exact Except.noConfusion h
    | (injection h with h2; subst h2; rfl)

theorem mkYearlyIter_duration {comp : VEvent} {ws we : DT}
    {st : YearState} (h : mkYearlyIter comp ws we = .ok st) :
    st.duration = instant comp.dtend - instant comp.dtstart ∨ st.years = [] := by
  simp only [mkYearlyIter] at h
  repeat' split at h
  all_goals first
    | exact Except.noConfusion h
    | (injection h with h2; subst h2; first
        | exact Or.inl rfl
        | exact Or.inr rfl)

theorem daysRun_shape (st : DaysState) : ∀ o ∈ daysRun st,
    o.2.1 = normalizeAdd o.1 st.duration ∧ o.2.2 = 1 := by
  unfold daysRun
  split
  · exact runCountFuel_shape _ _
  · exact runUntilFuel_shape _ _

theorem yearlyRunAux_shape (st : YearState) :
    ∀ (ys : List Int) (l : List Occ), yearlyRunAux st ys = .ok l →
      ∀ o ∈ l, o.2.1 = normalizeAdd o.1 st.duration ∧ o.2.2 = 1 := by
  intro ys
  induction ys with
  | nil =>
    intro l h o ho
    simp only [yearlyRunAux] at h
    injection h with h2
    subst h2
    simp at ho
  | cons y ys ih =>
    intro l h o ho
    rcases hrep : replaceYMD st.ev_start y st.bymonth st.bymonthday with e | aux
    · simp only [yearlyRunAux, bind, Except.bind, hrep] at h
      exact Except.noConfusion h
    · simp only [yearlyRunAux, bind, Except.bind, hrep] at h
      split at h
      · injection h with h2
        subst h2
        simp at ho
      · split at h
        · exact ih l h o ho
        · rcases hrest : yearlyRunAux st ys with e | rest
          · simp only [hrest] at h
            exact Except.noConfusion h
          · simp only [hrest] at h
            injection h with h2
            subst h2
            rcases List.mem_cons.1 ho with rfl | ho
            · exact ⟨rfl, rfl⟩
            · exact ih rest hrest o ho

/-- C9: every emitted occurrence preserves the template's duration
(`end - start` in elapsed instants equals `template.end - template.start`),
and the recurring flag is 0 exactly for the single-event generator and 1
for the daily/weekly and yearly generators. -/
theorem claim_C9 :
    (∀ (comp : VEvent) (ws we : DT), ∀ o ∈ eventSingleIter comp ws we,
      instant o.2.1 - instant o.1 = instant comp.dtend - instant comp.dtstart ∧
        o.2.2 = 0) ∧
    (∀ (days : Int) (comp : VEvent) (ws we : DT) (st : DaysState),
      mkDaysIter days comp ws we = .ok st → ∀ o ∈ daysRun st,
      instant o.2.1 - instant o.1 = instant comp.dtend - instant comp.dtstart ∧
        o.2.2 = 1) ∧
    (∀ (comp : VEvent) (ws we : DT) (st : YearState) (l : List Occ),
      mkYearlyIter comp ws we = .ok st → yearlyRun st = .ok l → ∀ o ∈ l,
      instant o.2.1 - instant o.1 = instant comp.dtend - instant comp.dtstart ∧
        o.2.2 = 1) := by
  refine ⟨?_, ?_, ?_⟩
  · intro comp ws we o ho
    simp only [eventSingleIter] at ho
    split at ho
    · rcases List.mem_singleton.1 ho with rfl
      exact ⟨rfl, rfl⟩
    · simp at ho
  · intro days comp ws we st hok o ho
    have hd := mkDaysIter_duration hok
    have hs := daysRun_shape st o ho
    rw [hs.1, instant_normalizeAdd, hd]
    exact ⟨by ring, hs.2⟩
  · intro comp ws we st l hok hrun o ho
    rcases mkYearlyIter_duration hok with hd | hnil
    · have hs := yearlyRunAux_shape st st.years l hrun o ho
      rw [hs.1, instant_normalizeAdd, hd]
      exact ⟨by ring, hs.2⟩
    · rw [yearlyRun, hnil] at hrun
      simp only [yearlyRunAux] at hrun
      injection hrun with h2
      subst h2
      simp at ho

def w9comp : VEvent :=
  ⟨"VEVENT", mkDT 2024 2 10 540 0 utcZone, mkDT 2024 2 10 630 0 utcZone, none⟩

def w9ws : DT := mkDT 2024 2 1 0 0 utcZone

def w9we : DT := mkDT 2024 3 1 0 0 utcZone

def w9occ : Occ := (w9comp.dtstart, w9comp.dtend, 0)

/-- C9 witness: the single-generator part at a concrete event. -/
theorem claim_C9_witness :
    instant w9occ.2.1 - instant w9occ.1 =
      instant w9comp.dtend - instant w9comp.dtstart ∧ w9occ.2.2 = 0 := by
  have he : eventSingleIter w9comp w9ws w9we = [w9occ] := by rfl
  exact claim_C9.1 w9comp w9ws w9we w9occ (by rw [he]; exact List.mem_singleton_self _)

/-! ### Claim C1: COUNT-terminated daily/weekly generators -/

def dummyDT : DT := mkDT 1 1 1 0 0 utcZone

def dummyDays : DaysState := ⟨dummyDT, 0, 0, false, 0, dummyDT⟩

def cx1comp : VEvent :=
  ⟨"VEVENT", mkDT 2023 6 1 0 0 utcZone, mkDT 2023 6 1 60 0 utcZone,
    some ⟨"DAILY", none, some 5, none, none, none⟩⟩

def cx1ws : DT := mkDT 2023 6 1 0 0 utcZone

def cx1we : DT := mkDT 2023 6 3 0 0 utcZone

def cx1st : DaysState := (mkDaysIter 1 cx1comp cx1ws cx1we).toOption.getD dummyDays

/-- C1 counterexample: a DAILY COUNT=5 rule starting exactly at the window
start, against a window only two days long.  The recurrence is clipped by
the window end (the last three counted occurrences start at or after it),
yet all 5 occurrences are emitted, not fewer: `next_count` never compares
`current` with the window end. -/
theorem claim_C1_cx :
    mkDaysIter 1 cx1comp cx1ws cx1we = .ok cx1st ∧
    (daysRun cx1st).length = 5 ∧
    ∃ o ∈ daysRun cx1st, instant cx1we ≤ instant o.1 := by
  exact ⟨rfl, by decide, by decide⟩

/-- C1 amended: with COUNT termination, when the template start is on or
after the window start exactly `count` occurrences are emitted whatever the
window end (COUNT emission ignores the upper bound); when the template
start precedes the window start, the remaining count is decremented by
exactly the `advance_just_before` step count and the generator is empty if
that leaves it below 1.  (The step-index of the first emitted occurrence
exceeds the decremented steps by the linear-nudge steps, which are not
decremented; see the C7 scenario.) -/
theorem claim_C1 (days : Int) (comp : VEvent) (rr : RRule) (n : Int)
    (ws we : DT) (hr : comp.rrule = some rr) (hcnt : rr.count = some n)
    (hu : rr.rUntil = none) (hwin : ¬ instant we < instant ws) :
    (¬ instant comp.dtstart < instant ws →
      ∀ st, mkDaysIter days comp ws we = .ok st →
        (daysRun st).length = n.toNat) ∧
    (instant comp.dtstart < instant ws →
      ∀ st, mkDaysIter days comp ws we = .ok st →
        st.count =
          n - (advance_just_before comp.dtstart ws
                (days * rr.interval.getD 1)).2 ∧
        (st.count < 1 → daysRun st = [])) := by
  constructor
  · intro hge st hok
    simp only [mkDaysIter, hr, hcnt, hu, Option.isSome_none, Option.isSome_some,
      Option.getD_some, Bool.false_eq_true, false_and, if_false, if_true,
      true_and] at hok
    rw [if_neg hwin, if_neg hge] at hok
    injection hok with h2
    subst h2
    simp only [daysRun, if_true]
    rw [runCountFuel_length]
    show min n.toNat n.toNat = n.toNat
    omega
  · intro hlt st hok
    simp only [mkDaysIter, hr, hcnt, hu, Option.isSome_none, Option.isSome_some,
      Option.getD_some, Bool.false_eq_true, false_and, if_false, if_true,
      true_and] at hok
    rw [if_neg hwin, if_pos hlt] at hok
    have hcount : st.count =
        n - (advance_just_before comp.dtstart ws (days * rr.interval.getD 1)).2 ∧
        st.isCount = true := by
      split at hok
      · injection hok with h2
        subst h2
        exact ⟨rfl, rfl⟩
      · injection hok with h2
        subst h2
        exact ⟨rfl, rfl⟩
    refine ⟨hcount.1, fun hlt1 => ?_⟩
    simp only [daysRun, hcount.2, if_true]
    exact runCountFuel_nil hlt1

def w1comp : VEvent :=
  ⟨"VEVENT", mkDT 2023 7 4 300 0 utcZone, mkDT 2023 7 4 360 0 utcZone,
    some ⟨"DAILY", none, some 3, none, none, none⟩⟩

def w1ws : DT := mkDT 2023 7 1 0 0 utcZone

def w1we : DT := mkDT 2023 8 1 0 0 utcZone

def w1st : DaysState := (mkDaysIter 1 w1comp w1ws w1we).toOption.getD dummyDays

/-- C1 witness: a COUNT=3 rule starting inside the window emits exactly 3
occurrences. -/
theorem claim_C1_witness : (daysRun w1st).length = 3 :=
  (claim_C1 1 w1comp ⟨"DAILY", none, some 3, none, none, none⟩ 3 w1ws w1we
    rfl rfl rfl (by decide)).1 (by decide) w1st rfl

/-! ### Claim C6: UNTIL-terminated daily/weekly generators -/

/-- C6: with UNTIL termination every emitted occurrence start lies in
`[window.start, min(until, window.end)]` (instants), and consecutive
emitted starts differ by exactly `step_days` days of wall-clock time
(`1440 * days * interval` minutes), whatever real elapsed time the zone's
DST rules produce.  Hypotheses `Localized`/`ZoneVar` state that the
template start carries the offset its own zone assigns and that the zone's
offsets vary by less than four hours, as every pytz zone does. -/
theorem claim_C6 (days : Int) (comp : VEvent) (rr : RRule) (u : DT)
    (ws we : DT) (st : DaysState)
    (hr : comp.rrule = some rr) (hu : rr.rUntil = some u) (hc : rr.count = none)
    (hloc : Localized comp.dtstart) (hz : ZoneVar comp.dtstart.zone)
    (hint : 1 ≤ rr.interval.getD 1) (hdays : 1 ≤ days)
    (hok : mkDaysIter days comp ws we = .ok st) :
    (∀ o ∈ daysRun st, instant ws ≤ instant o.1 ∧
      instant o.1 ≤ instant (minDT (astimezoneUtc u) we)) ∧
    List.Chain'
      (fun a b : Occ => b.1.wall = a.1.wall + 1440 * (days * rr.interval.getD 1))
      (daysRun st) := by
  have hd1 : 1 ≤ days * rr.interval.getD 1 := by
    have h2 := mul_le_mul hdays hint (by norm_num) (by omega)
    simpa using h2
  have hdm : (1440:Int) ≤ 1440 * (days * rr.interval.getD 1) := by omega
  simp only [mkDaysIter, hr, hu, hc, Option.isSome_some, Option.isSome_none,
    Option.getD_none, Bool.false_eq_true, and_false, false_and, if_false,
    if_true, true_and, and_true] at hok
  split at hok
  · -- upper bound precedes the window: the default state iterates zero times
    rename_i h1
    injection hok with h2
    subst h2
    simp only [daysRun, Bool.false_eq_true, if_false]
    rw [runUntilFuel_nil (by
      show instant (astimezoneUtc u) <
        instant (addPlain (astimezoneUtc u) (1440 * (days * rr.interval.getD 1)))
      rw [instant_addPlain]
      omega)]
    exact ⟨by simp, by simp⟩
  · rename_i h1
    split at hok
    · -- fast-forward: pre-advance then nudge
      rename_i hlt
      injection hok with h2
      subst h2
      simp only [daysRun, Bool.false_eq_true, if_false]
      have hzp : ZoneVar ((advance_just_before comp.dtstart ws
          (days * rr.interval.getD 1)).1).zone := by
        show ZoneVar (add_delta_dst comp.dtstart _).zone
        rw [zone_add_delta]
        exact hz
      have hlocn := nudge_localized ws (1440 * (days * rr.interval.getD 1))
        (advance_just_before comp.dtstart ws (days * rr.interval.getD 1)).1
        (localized_add_delta _ _)
      have hzn : ZoneVar ((nudge ws (1440 * (days * rr.interval.getD 1))
          (advance_just_before comp.dtstart ws
            (days * rr.interval.getD 1)).1).zone) := by
        rw [nudge_zone]
        exact hzp
      have hb := nudge_ge hdm ws
        (advance_just_before comp.dtstart ws (days * rr.interval.getD 1)).1
        (localized_add_delta _ _) hzp
      exact ⟨fun o ho => runUntilFuel_mem (instant ws) _ _ hlocn hzn
        (by show (240:Int) ≤ 1440 * (days * rr.interval.getD 1); omega)
        (by show instant ws ≤ instant (nudge ws
              (1440 * (days * rr.interval.getD 1))
              (advance_just_before comp.dtstart ws
                (days * rr.interval.getD 1)).1)
            omega) o ho,
        runUntilFuel_chain _ _⟩
    · -- template start on/after the window start
      rename_i hge
      injection hok with h2
      subst h2
      simp only [daysRun, Bool.false_eq_true, if_false]
      exact ⟨fun o ho => runUntilFuel_mem (instant ws) _ _ hloc hz
        (by show (240:Int) ≤ 1440 * (days * rr.interval.getD 1); omega)
        (by show instant ws ≤ instant comp.dtstart; omega) o ho,
        runUntilFuel_chain _ _⟩

def w6rr : RRule := ⟨"DAILY", none, none, some (mkDT 2023 3 5 600 0 utcZone), none, none⟩

def w6comp : VEvent :=
  ⟨"VEVENT", mkDT 2023 3 1 600 0 utcZone, mkDT 2023 3 1 660 0 utcZone, some w6rr⟩

def w6ws : DT := mkDT 2023 3 1 0 0 utcZone

def w6we : DT := mkDT 2023 4 1 0 0 utcZone

def w6st : DaysState := (mkDaysIter 1 w6comp w6ws w6we).toOption.getD dummyDays

/-- C6 witness: a concrete daily UNTIL rule inside a UTC window. -/
theorem claim_C6_witness :
    (∀ o ∈ daysRun w6st, instant w6ws ≤ instant o.1 ∧
      instant o.1 ≤ instant (minDT (astimezoneUtc (mkDT 2023 3 5 600 0 utcZone)) w6we)) ∧
    List.Chain'
      (fun a b : Occ => b.1.wall = a.1.wall + 1440 * (1 * w6rr.interval.getD 1))
      (daysRun w6st) :=
  claim_C6 1 w6comp w6rr (mkDT 2023 3 5 600 0 utcZone) w6ws w6we w6st
    rfl rfl rfl rfl (fun w w' => by norm_num [utcZone, w6comp, mkDT])
    (by norm_num [w6rr]) (by norm_num) rfl

/-! ### Claim C7: the DAILY COUNT scenario -/

def c7comp : VEvent :=
  ⟨"VEVENT", mkDT 2023 6 1 0 0 utcZone, mkDT 2023 6 1 60 0 utcZone,
    some ⟨"DAILY", none, some 5, none, none, none⟩⟩

def c7ws : DT := mkDT 2023 6 3 0 0 utcZone

def c7we : DT := mkDT 2030 1 1 0 0 utcZone

def c7st : DaysState := (mkDaysIter 1 c7comp c7ws c7we).toOption.getD dummyDays

/-- C7 counterexample: the scenario (template 2023-06-01, DAILY interval 1,
COUNT 5, window [2023-06-03, 2030-01-01)) emits 4 occurrences, not the
claimed 2, and the first starts on 2023-06-03, not 06-04. -/
theorem claim_C7_cx :
    mkDaysIter 1 c7comp c7ws c7we = .ok c7st ∧
    ¬ ((daysRun c7st).length = 2) ∧
    ¬ ((daysRun c7st).map fun o => (o.1.month, o.1.day)) = [(6, 4), (6, 5)] := by
  exact ⟨rfl, by decide, by decide⟩

/-- C7 amended: the scenario emits exactly 4 occurrences, on 2023-06-03,
06-04, 06-05 and 06-06 at midnight UTC: the ordinal pre-advance deducts
only `floor((ord(06-03) - ord(06-01) - 1) / 1) = 1` step from the count,
the linear nudge then consumes one more step without deducting it, and
COUNT emission ignores the window end. -/
theorem claim_C7 :
    mkDaysIter 1 c7comp c7ws c7we = .ok c7st ∧
    ((daysRun c7st).map fun o => (o.1.year, o.1.month, o.1.day, timeOfDay o.1)) =
      [(2023, 6, 3, 0), (2023, 6, 4, 0), (2023, 6, 5, 0), (2023, 6, 6, 0)] ∧
    c7st.count = 5 - 1 ∧
    (advance_just_before c7comp.dtstart c7ws 1).2 = 1 := by
  exact ⟨rfl, by decide, by decide, by decide⟩

/-! ### Claim C8: the WEEKLY unbounded scenario -/

/-- Madrid in winter (CET, UTC+1) as a fixed-offset zone; no DST transition
occurs between 2023-01-10 and 2023-02-15. -/
def madridWinter : Zone := ⟨fun _ => 60, fun _ => 60⟩

def c8comp : VEvent :=
  ⟨"VEVENT", mkDT 2023 1 10 600 60 madridWinter, mkDT 2023 1 10 660 60 madridWinter,
    some ⟨"WEEKLY", none, none, none, none, none⟩⟩

def c8ws : DT := mkDT 2023 2 1 0 0 utcZone

def c8we : DT := mkDT 2023 2 15 0 0 utcZone

def c8st : DaysState := (mkDaysIter 7 c8comp c8ws c8we).toOption.getD dummyDays

/-- C8 counterexample: the scenario (template 2023-01-10T10:00 zoned +1h,
WEEKLY interval 1, window [2023-02-01, 2023-02-15)) emits two occurrences,
2023-02-07 and 2023-02-14, not the claimed single occurrence on 02-14: the
first Tuesday on/after Feb 1 reachable by 7-day steps from Jan 10 is
Feb 7. -/
theorem claim_C8_cx :
    mkDaysIter 7 c8comp c8ws c8we = .ok c8st ∧
    ¬ ((daysRun c8st).length = 1) := by
  exact ⟨rfl, by decide⟩

/-- C8 amended: the scenario emits exactly the two occurrences
2023-02-07 10:00 and 2023-02-14 10:00 local wall clock. -/
theorem claim_C8 :
    mkDaysIter 7 c8comp c8ws c8we = .ok c8st ∧
    ((daysRun c8st).map fun o => (o.1.year, o.1.month, o.1.day, timeOfDay o.1)) =
      [(2023, 2, 7, 600), (2023, 2, 14, 600)] := by
  exact ⟨rfl, by decide⟩

/-! ### Claim C2: rules carrying both COUNT and UNTIL -/

def cx2rr : RRule :=
  ⟨"YEARLY", none, some 2, some (mkDT 2020 1 1 0 0 utcZone), none, none⟩

def cx2comp : VEvent :=
  ⟨"VEVENT", mkDT 2019 3 5 600 0 utcZone, mkDT 2019 3 5 660 0 utcZone, some cx2rr⟩

def cx2ws : DT := mkDT 2023 6 1 0 0 utcZone

def cx2we : DT := mkDT 2024 6 1 0 0 utcZone

/-- C2 counterexample: a YEARLY rule carrying both COUNT and UNTIL, with
its UNTIL before the window start, constructs WITHOUT raising: the yearly
constructor's early return at source line 151 precedes the COUNT+UNTIL
check at line 166. -/
theorem claim_C2_cx :
    cx2rr.count.isSome = true ∧ cx2rr.rUntil.isSome = true ∧
    instant (astimezoneUtc (mkDT 2020 1 1 0 0 utcZone)) < instant cx2ws ∧
    isError (mkYearlyIter cx2comp cx2ws cx2we) = false := by
  exact ⟨rfl, rfl, by decide, by decide⟩

/-- C2 amended: a Daily/Weekly generator always fails construction on a
COUNT+UNTIL rule, for every window; the Yearly generator fails exactly when
the clamped upper bound `min(window.end, until)` does not precede the
window start, and otherwise returns an exhausted generator without any
error. -/
theorem claim_C2 (days : Int) (comp : VEvent) (rr : RRule) (n : Int) (u : DT)
    (ws we : DT) (hr : comp.rrule = some rr) (hcnt : rr.count = some n)
    (hu : rr.rUntil = some u) :
    isError (mkDaysIter days comp ws we) = true ∧
    (¬ instant (minDT we (astimezoneUtc u)) < instant ws →
      isError (mkYearlyIter comp ws we) = true) ∧
    (instant (minDT we (astimezoneUtc u)) < instant ws →
      ∃ st, mkYearlyIter comp ws we = .ok st ∧ st.years = []) := by
  refine ⟨?_, ?_, ?_⟩
  · simp [mkDaysIter, hr, hcnt, hu, isError]
  · intro hge
    simp only [mkYearlyIter, hr, hcnt, hu, Option.isSome_some, if_true,
      true_and] at *
    rw [if_neg hge]
    simp [isError]
  · intro hlt
    simp only [mkYearlyIter, hr, hcnt, hu, Option.isSome_some, if_true,
      true_and]
    rw [if_pos hlt]
    exact ⟨_, rfl, rfl⟩

def w2rr : RRule :=
  ⟨"DAILY", none, some 4, some (mkDT 2023 9 20 0 0 utcZone), none, none⟩

def w2comp : VEvent :=
  ⟨"VEVENT", mkDT 2023 9 1 600 0 utcZone, mkDT 2023 9 1 660 0 utcZone, some w2rr⟩

def w2ws : DT := mkDT 2023 9 1 0 0 utcZone

def w2we : DT := mkDT 2023 10 1 0 0 utcZone

/-- C2 witness: the amended statement at a concrete COUNT+UNTIL rule whose
until lies inside the window. -/
theorem claim_C2_witness :
    isError (mkDaysIter 1 w2comp w2ws w2we) = true ∧
    (¬ instant (minDT w2we (astimezoneUtc (mkDT 2023 9 20 0 0 utcZone))) <
        instant w2ws →
      isError (mkYearlyIter w2comp w2ws w2we) = true) ∧
    (instant (minDT w2we (astimezoneUtc (mkDT 2023 9 20 0 0 utcZone))) <
        instant w2ws →
      ∃ st, mkYearlyIter w2comp w2ws w2we = .ok st ∧ st.years = []) :=
  claim_C2 1 w2comp w2rr 4 (mkDT 2023 9 20 0 0 utcZone) w2ws w2we rfl rfl rfl

/-! ### Claim C10: the dispatcher evaluates every family before the tag lookup -/

/-- C10: when a component is a VEVENT with a recurrence rule, the mapping
literal in `generate_event_iterator` constructs the Weekly, Daily and
Yearly generators before indexing by the FREQ tag, so a construction-time
failure of any of them propagates for every tag, including MONTHLY whose
selected value is just the empty list. -/
theorem claim_C10 (comp : VEvent) (rr : RRule) (ws we : DT)
    (hname : comp.name = "VEVENT") (hr : comp.rrule = some rr)
    (herr : isError (mkDaysIter 7 comp ws we) = true ∨
      isError (mkDaysIter 1 comp ws we) = true ∨
      isError (mkYearlyIter comp ws we) = true) :
    isError (generate_event_iterator comp ws we) = true := by
  rcases h7 : mkDaysIter 7 comp ws we with e | w
  · simp [generate_event_iterator, hname, hr, h7, bind, Except.bind, isError]
  · rcases h1 : mkDaysIter 1 comp ws we with e | d
    · simp [generate_event_iterator, hname, hr, h7, h1, bind, Except.bind,
        isError]
    · rcases hy : mkYearlyIter comp ws we with e | y
      · simp [generate_event_iterator, hname, hr, h7, h1, hy, bind,
          Except.bind, isError]
      · rcases herr with h | h | h <;>
          simp only [h7, h1, hy, isError] at h <;> exact absurd h (by simp)

def w10comp : VEvent :=
  ⟨"VEVENT", mkDT 2023 3 5 600 0 utcZone, mkDT 2023 3 5 660 0 utcZone,
    some ⟨"MONTHLY", none, some 3, some (mkDT 2024 1 1 0 0 utcZone), none, none⟩⟩

def w10ws : DT := mkDT 2023 6 1 0 0 utcZone

def w10we : DT := mkDT 2024 6 1 0 0 utcZone

/-- C10 witness: a MONTHLY-tagged rule carrying both COUNT and UNTIL makes
the dispatcher raise even though MONTHLY's own selected value is the empty
list. -/
theorem claim_C10_witness :
    isError (generate_event_iterator w10comp w10ws w10we) = true :=
  claim_C10 w10comp
    ⟨"MONTHLY", none, some 3, some (mkDT 2024 1 1 0 0 utcZone), none, none⟩
    w10ws w10we rfl rfl (Or.inl (by decide))

/-! ### Claim C3: the yearly generator -/

def dummyYear : YearState := ⟨dummyDT, 0, 0, 0, [], dummyDT, dummyDT⟩

def cx3comp : VEvent :=
  ⟨"VEVENT", mkDT 2020 2 29 600 0 utcZone, mkDT 2020 2 29 660 0 utcZone,
    some ⟨"YEARLY", none, none, none, some 3, some 1⟩⟩

def cx3ws : DT := mkDT 2023 1 1 0 0 utcZone

def cx3we : DT := mkDT 2023 12 31 0 0 utcZone

def cx3st : YearState := (mkYearlyIter cx3comp cx3ws cx3we).toOption.getD dummyYear

/-- C3 counterexample: with BYMONTH=3, BYMONTHDAY=1 (a pair valid in every
year) on a template starting 2020-02-29, the candidate for year 2023 raises
`ValueError`: `replace(year=2023)` is applied to the Feb-29 start before
month and day are replaced, and 2023-02-29 does not exist. -/
theorem claim_C3_cx :
    mkYearlyIter cx3comp cx3ws cx3we = .ok cx3st ∧
    (∀ y : Int, 1 ≤ (1:Int) ∧ (1:Int) ≤ daysInMonth y 3) ∧
    isError (yearlyRun cx3st) = true := by
  exact ⟨rfl, fun y => by norm_num [daysInMonth], by decide⟩

/-- The candidate occurrence the yearly generator builds for year `y` when
no replacement step raises: the template start with its calendar date
replaced by `(y, bymonth, bymonthday)`, time of day, offset and zone kept. -/
def mkAux (st : YearState) (y : Int) : DT :=
  ⟨ordinalFromCivil y st.bymonth st.bymonthday * 1440 + timeOfDay st.ev_start,
    y, st.bymonth, st.bymonthday, st.ev_start.off, st.ev_start.zone⟩

/-- The three `replace` steps for candidate year `y` are all valid: the
template's day fits its own month in year `y` and fits `bymonth` in year
`y`, and `(bymonth, bymonthday)` is itself a valid date of year `y`. -/
abbrev ReplOk (st : YearState) (y : Int) : Prop :=
  1 ≤ st.ev_start.month ∧ st.ev_start.month ≤ 12 ∧
  1 ≤ st.ev_start.day ∧ st.ev_start.day ≤ daysInMonth y st.ev_start.month ∧
  1 ≤ st.bymonth ∧ st.bymonth ≤ 12 ∧
  st.ev_start.day ≤ daysInMonth y st.bymonth ∧
  1 ≤ st.bymonthday ∧ st.bymonthday ≤ daysInMonth y st.bymonth

theorem timeOfDay_mkwall (X t y m d off : Int) (z : Zone) (h0 : 0 ≤ t)
    (h1 : t < 1440) : timeOfDay ⟨X * 1440 + t, y, m, d, off, z⟩ = t := by
  simp only [timeOfDay, toordinal,
    Int.fdiv_eq_ediv _ (by norm_num : (0:Int) ≤ 1440)]
  omega

theorem replaceYMD_ok (st : YearState) (y : Int) (h : ReplOk st y) :
    replaceYMD st.ev_start y st.bymonth st.bymonthday = .ok (mkAux st y) := by
  obtain ⟨h1, h2, h3, h4, h5, h6, h7, h8, h9⟩ := h
  have ht := timeOfDay_bounds st.ev_start
  simp only [replaceYMD, bind, Except.bind, replace_year]
  rw [if_pos ⟨h1, h2, h3, h4⟩]
  simp only [replace_month]
  rw [timeOfDay_mkwall _ _ _ _ _ _ _ ht.1 ht.2]
  rw [if_pos ⟨h5, h6, h3, h7⟩]
  simp only [replace_day]
  rw [timeOfDay_mkwall _ _ _ _ _ _ _ ht.1 ht.2]
  rw [if_pos ⟨h5, h6, h8, h9⟩]
  rfl

/-- The sequence the yearly emission loop produces from a list of candidate
years when every replacement is valid: stop at the first candidate past the
upper bound, drop candidates before the window start, emit the rest. -/
def yearlyShape (st : YearState) (ys : List Int) : List Occ :=
  ((ys.takeWhile fun y => !decide (instant st.endB < instant (mkAux st y))).filter
      fun y => !decide (instant (mkAux st y) < instant st.startB)).map
    fun y => (mkAux st y, normalizeAdd (mkAux st y) st.duration, 1)

theorem yearlyRunAux_ok (st : YearState) :
    ∀ ys : List Int, (∀ y ∈ ys, ReplOk st y) →
      yearlyRunAux st ys = .ok (yearlyShape st ys) := by
  intro ys
  induction ys with
  | nil => intro _; rfl
  | cons y ys ih =>
    intro hv
    have hy := hv y (List.mem_cons_self y ys)
    have hrest : ∀ z ∈ ys, ReplOk st z :=
      fun z hz => hv z (List.mem_cons_of_mem y hz)
    simp only [yearlyRunAux, replaceYMD_ok st y hy, bind, Except.bind]
    by_cases hstop : instant st.endB < instant (mkAux st y)
    · rw [if_pos hstop]
      simp [yearlyShape, List.takeWhile_cons, hstop]
    · rw [if_neg hstop]
      by_cases hskip : instant (mkAux st y) < instant st.startB
      · rw [if_pos hskip]
        rw [ih hrest]
        simp [yearlyShape, List.takeWhile_cons, List.filter_cons, hstop, hskip]
      · rw [if_neg hskip]
        rw [ih hrest]
        simp [yearlyShape, List.takeWhile_cons, List.filter_cons, hstop, hskip]

theorem rangeInts_pairwise (a b : Int) :
    List.Pairwise (· < ·) (rangeInts a b) := by
  unfold rangeInts
  refine List.Pairwise.map _ (fun i j hij => ?_) (List.pairwise_lt_range _)
  show a + (i : Int) < a + (j : Int)
  omega

theorem mkYearlyIter_years_sorted {comp : VEvent} {ws we : DT}
    {st : YearState} (h : mkYearlyIter comp ws we = .ok st) :
    List.Pairwise (· < ·) st.years := by
  simp only [mkYearlyIter] at h
  repeat' split at h
  all_goals first
    | exact Except.noConfusion h
    | (injection h with h2; subst h2; first
        | exact List.Pairwise.nil
        | exact rangeInts_pairwise _ _
        | exact (rangeInts_pairwise _ _).sublist (List.take_sublist _ _))

/-- C3 amended: when additionally every candidate year admits the
template's day-of-month under the template's own month and under
`by_month` (the intermediate dates of the year-month-day replacement
chain), and `(by_month, by_month_day)` is valid in that year, no step
raises; the emitted occurrences are exactly the candidates inside the
window (skip-before-start, stop-at-first-past-the-bound) and their years
are strictly increasing.  Without the extra day-validity conditions the
chain can raise even on a valid target pair (see the counterexample). -/
theorem claim_C3 (comp : VEvent) (ws we : DT) (st : YearState)
    (hok : mkYearlyIter comp ws we = .ok st)
    (hv : ∀ y ∈ st.years, ReplOk st y) :
    yearlyRun st = .ok (yearlyShape st st.years) ∧
    List.Pairwise (fun a b : Occ => a.1.year < b.1.year)
      (yearlyShape st st.years) := by
  constructor
  · exact yearlyRunAux_ok st st.years hv
  · have hp := mkYearlyIter_years_sorted hok
    have hp2 : List.Pairwise (· < ·)
        ((st.years.takeWhile fun y =>
            !decide (instant st.endB < instant (mkAux st y))).filter
          fun y => !decide (instant (mkAux st y) < instant st.startB)) :=
      (hp.sublist (List.takeWhile_sublist _)).sublist (List.filter_sublist _)
    rw [yearlyShape, List.pairwise_map]
    exact hp2.imp fun hab => hab

def w3comp : VEvent :=
  ⟨"VEVENT", mkDT 2020 6 15 600 0 utcZone, mkDT 2020 6 15 660 0 utcZone,
    some ⟨"YEARLY", none, none, none, none, none⟩⟩

def w3ws : DT := mkDT 2022 1 1 0 0 utcZone

def w3we : DT := mkDT 2024 1 1 0 0 utcZone

def w3st : YearState := (mkYearlyIter w3comp w3ws w3we).toOption.getD dummyYear

/-- C3 witness: a plain yearly rule (June 15) over a three-year window. -/
theorem claim_C3_witness :
    yearlyRun w3st = .ok (yearlyShape w3st w3st.years) ∧
    List.Pairwise (fun a b : Occ => a.1.year < b.1.year)
      (yearlyShape w3st w3st.years) :=
  claim_C3 w3comp w3ws w3we w3st rfl (by decide)
